import Mathlib

/-!
Verification development for `happy.c`, a TCP happy-eyeballs probing tool.

The program keeps, per resolved endpoint, a mutable probing state
(`socket`, `tvs`, `sum`, `tot`, `idx`, `cnt`, `values`).  The functions
embedded below are translated from the C source:

* `update_ep`  — the per-endpoint body of `update()` (the Completion
  Collector): timeout check first, then the readiness/`getsockopt` path.
* `okField`    — the third field of `report_sk()`'s output line.
* `cmp`, `sortEps` — the Ranker's comparator and the sort it drives.
* `renderValue` — the per-sample field of the human `report()`.
* `trimFirstLoop` — the first loop of `trim()`, with out-of-bounds reads
  made explicit as `none`.
* `opt_t_set`  — the `-t` case of `main()`'s option loop.
* `selectTimeout` — the timeout argument `collect()` passes to `select()`.
* `prepare_ep` — the socket/fcntl/connect phase of `prepare()` for one
  endpoint, driven by an environment outcome.
* `delayWaitLoop` — the pacing wait loop of `prepare()`.
* `runEvents`  — per-endpoint event traces (prepare passes and collector
  passes) used for the sample-index bound.

Machine integers: the C fields `sum`, `tot`, `idx`, `cnt` and the local
`us` are `unsigned int`; `values` stores `int`.  We model unsigned values
as `Nat` with explicit `% 2^32` where the source can overflow, and the
unsigned→int conversion of a stored sample via `toInt32`.
-/

namespace Happy

/-- Modulus `2^32` of C `unsigned int` arithmetic. -/
def UINT_MOD : Nat := 4294967296

/-- Reinterpret an unsigned 32-bit value as a C `int` (two's complement),
as happens when `update()` stores `us` or `-us` into `ep->values[]`. -/
def toInt32 (n : Nat) : Int :=
  if n % UINT_MOD < 2147483648 then (n % UINT_MOD : Nat)
  else (n % UINT_MOD : Nat) - (UINT_MOD : Nat)

/-- Unsigned negation `-us` of C `unsigned int` arithmetic. -/
def negU (n : Nat) : Nat := (UINT_MOD - n % UINT_MOD) % UINT_MOD

/-- Elapsed time `us = td.tv_sec*1000000 + td.tv_usec` where
`td = now - tvs` (`timersub`), truncated to `unsigned int`.  Times are
in microseconds; the model assumes a monotone clock (`tvs ≤ now`). -/
def elapsedUS (now tvs : Nat) : Nat := (now - tvs) % UINT_MOD

/-- Mutable probing state of one endpoint (`endpoint_t` in the source).
`values` models the written prefix `ep->values[0 .. idx)`: `update()`
always writes at index `idx` and then increments `idx`, so the written
prefix grows by appending. -/
structure Endpoint where
  socket : Int := 0
  tvs : Nat := 0
  sum : Nat := 0
  tot : Nat := 0
  idx : Nat := 0
  cnt : Nat := 0
  values : List Int := []
deriving DecidableEq

/-- Per-endpoint body of `update()` (the Completion Collector).
Inputs from the environment: `now` (the `gettimeofday` reading taken at
the top of `update()`), `isset` (`FD_ISSET(ep->socket, fdset)`), and
`soerror` (the `SO_ERROR` value delivered by `getsockopt`; the source
exits the process if the `getsockopt` call itself fails, so this model
covers the passes on which it succeeds). -/
def update_ep (timeout now : Nat) (isset : Bool) (soerror : Int)
    (ep : Endpoint) : Endpoint :=
  let us := elapsedUS now ep.tvs
  if ep.socket ≠ 0 ∧ timeout * 1000 ≤ us then
    { ep with values := ep.values ++ [toInt32 (negU us)],
              idx := ep.idx + 1, socket := 0 }
  else if ep.socket ≠ 0 ∧ isset then
    if soerror = 0 then
      { ep with values := ep.values ++ [toInt32 us],
                sum := (ep.sum + us) % UINT_MOD,
                tot := ep.tot + 1, cnt := ep.cnt + 1,
                idx := ep.idx + 1, socket := 0 }
    else
      { ep with values := ep.values ++ [toInt32 (negU us)],
                cnt := ep.cnt + 1, idx := ep.idx + 1, socket := 0 }
  else ep

/-- The third field of a `report_sk()` line: `ep->cnt ? "OK" : "FAIL"`. -/
def okField (ep : Endpoint) : String := if ep.cnt ≠ 0 then "OK" else "FAIL"

/-- State invariant maintained by the Completion Collector:
`tot ≤ cnt ≤ idx`, `idx` counts the written prefix of `values`, and the
non-negative entries of `values` are exactly the successes. -/
def epInv (ep : Endpoint) : Prop :=
  ep.tot ≤ ep.cnt ∧ ep.cnt ≤ ep.idx ∧ ep.idx = ep.values.length ∧
    ep.values.countP (fun v => decide (0 ≤ v)) = ep.tot

instance (ep : Endpoint) : Decidable (epInv ep) := by
  unfold epInv; infer_instance

/-- The Ranker's comparator `cmp()`: endpoints with no success (`tot == 0`)
compare equal to everything; otherwise compare the integer means
`sum/tot` (C unsigned division). -/
def cmp (a b : Endpoint) : Int :=
  if a.tot = 0 ∨ b.tot = 0 then 0
  else if a.sum / a.tot < b.sum / b.tot then -1
  else if b.sum / b.tot < a.sum / a.tot then 1
  else 0

/-- Insert one endpoint into a list already arranged by `cmp`; building
block of the comparator-faithful sort that models `qsort(…, cmp)`. -/
def insertEp (x : Endpoint) : List Endpoint → List Endpoint
  | [] => [x]
  | y :: ys => if cmp x y ≤ 0 then x :: y :: ys else y :: insertEp x ys

/-- Model of `sort()` for one target: `qsort(tp->endpoints,
tp->num_endpoints, sizeof(*ep), cmp)`, a sort that respects the comparator
(any correct sort yields an arrangement pairwise-consistent with `cmp`;
for inputs on which `cmp` is a total preorder the result below is the
behavior of every conforming `qsort`). -/
def sortEps : List Endpoint → List Endpoint
  | [] => []
  | x :: xs => insertEp x (sortEps xs)

/-- Non-decreasing order of integer mean successful latency. -/
def meanLe (a b : Endpoint) : Prop := a.sum / a.tot ≤ b.sum / b.tot

instance : DecidableRel meanLe := by
  unfold meanLe; infer_instance

/-- One rendered field of the human `report()`: for `values[i] >= 0` the
source prints `" %4u.%03u", values[i]/1000, values[i]%1000`; otherwise
the placeholder `"     *   "`.  `num a b` records the two numbers the
format string receives. -/
inductive Field where
  | num (a b : Nat)
  | star
deriving DecidableEq

/-- Per-sample rendering of `report()` (lines 539-547 of the source). -/
def renderValue (v : Int) : Field :=
  if 0 ≤ v then .num (v.toNat / 1000) (v.toNat % 1000) else .star

/-- The fields of one endpoint's report line: the loop runs
`for (i = 0; i < ep->idx; i++)`, so exactly the written samples are
rendered, with no padding for missing ones. -/
def renderValues (vals : List Int) : List Field := vals.map renderValue

/-- Modelled from the spec: the rendering the specification describes,
`SSSS.mmm` "(seconds.milliseconds derived from a positive microsecond
sample)", for comparison against `renderValue`. -/
def specRenderValue (v : Int) : Field :=
  if 0 ≤ v then .num (v.toNat / 1000000) (v.toNat % 1000000 / 1000) else .star

/-- C `isspace` in the default locale. -/
def isspaceC (c : Char) : Bool :=
  c = ' ' || c = '\t' || c = '\n' || c.toNat = 11 || c.toNat = 12 || c = '\x0d'

/-- The first loop of `trim()`: `while(isspace(p[l-1]) && l) p[--l] = 0;`
counting `l` down from `strlen(p)`.  The loop condition evaluates
`p[l-1]` before testing `l`, so when `l` reaches `0` it reads one byte
before the buffer; the model makes that read explicit as `none`.
Otherwise it returns the length remaining after stripping trailing
white space. -/
def trimRightLen (p : List Char) : Nat → Option Nat
  | 0 => none
  | l + 1 => if isspaceC (p.getD l ' ') then trimRightLen p l else some (l + 1)

/-- First loop of `trim()` applied to the whole string. -/
def trimFirstLoop (p : List Char) : Option Nat := trimRightLen p p.length

/-- Value `strtol` computes for a decimal digit string. -/
def digitsVal (ds : List Nat) : Nat := ds.foldl (fun a d => 10 * a + d) 0

/-- Result of `strtol(optarg, &endptr, 10)` on an optionally negated
digit string (the canonical spelling of an integer argument): the
mathematical value saturated to the 64-bit `long` range, as `strtol`
clamps to `LONG_MIN`/`LONG_MAX` on overflow. -/
def strtolNum (neg : Bool) (ds : List Nat) : Int :=
  max (-9223372036854775808)
    (min 9223372036854775807
      (if neg then -(digitsVal ds : Int) else (digitsVal ds : Int)))

/-- Two's-complement truncation of a `long` value into a C `int`, as
performed by the assignment `int num = strtol(optarg, &endptr, 10)`
(the conversion of an out-of-range value is implementation-defined;
this models the usual wrap-around of gcc and clang). -/
def longToInt (n : Int) : Int :=
  if n % 4294967296 < 2147483648 then n % 4294967296
  else n % 4294967296 - 4294967296

/-- The `-t` case of `main()`'s option loop: given `strtol`'s `long`
result (which the source truncates into the `int` variable `num`) and
whether the whole argument was consumed (`*endptr == '\0'`), either the
new timeout value, or `none` for `exit(EXIT_FAILURE)` (the source
requires `num > 0`). -/
def opt_t_set (longVal : Int) (endptrAtEnd : Bool) : Option Nat :=
  if 0 < longToInt longVal ∧ endptrAtEnd then some (longToInt longVal).toNat
  else none

/-- The timeout argument `collect()` passes to `select()`:
`timeout ? &to : NULL` with `to = {timeout/1000, (timeout%1000)*1000}`;
`none` models the NULL (unbounded) wait. -/
def selectTimeout (timeout : Nat) : Option (Nat × Nat) :=
  if timeout ≠ 0 then some (timeout / 1000, timeout % 1000 * 1000) else none

/-- Environment outcome of the socket/fcntl/connect phase of `prepare()`
for one endpoint.

* `sockFail unsupported` — `socket()` returned `-1`; `unsupported` is
  true when `errno` is `EAFNOSUPPORT` or `EPROTONOSUPPORT` (the `case`
  labels that `continue` without touching `ep->socket` again), false for
  the `default:` label (which resets `ep->socket = 0`).
* `fcntlFail fd` — `socket()` returned `fd` but `fcntl(F_SETFL)` failed:
  close, `ep->socket = 0`, skip.
* `connFail fd` — `connect()` failed with `errno != EINPROGRESS`: close,
  `ep->socket = 0`, skip.
* `connStart fd now` — `connect()` is in progress (or succeeded at
  once): the attempt is left pending and `gettimeofday(&ep->tvs)` is
  taken. -/
inductive ConnEv where
  | sockFail (unsupported : Bool)
  | fcntlFail (fd : Int)
  | connFail (fd : Int)
  | connStart (fd : Int) (now : Nat)
deriving DecidableEq

/-- The socket/fcntl/connect phase of `prepare()` for one endpoint
(source lines 386-422).  Note the `EAFNOSUPPORT`/`EPROTONOSUPPORT`
branch: `ep->socket` has already been assigned the `-1` that `socket()`
returned, and the `continue` skips the reset that the `default:` branch
performs. -/
def prepare_ep (ev : ConnEv) (ep : Endpoint) : Endpoint :=
  match ev with
  | .sockFail unsupported =>
      if unsupported then { ep with socket := -1 } else { ep with socket := 0 }
  | .fcntlFail _ => { ep with socket := 0 }
  | .connFail _ => { ep with socket := 0 }
  | .connStart fd now => { ep with socket := fd, tvs := now }

/-- Readiness observation for one collector pass that touches an
endpoint: the `gettimeofday` reading, the `FD_ISSET` result, and the
`SO_ERROR` value. -/
structure Obs where
  now : Nat
  isset : Bool
  soerror : Int
deriving DecidableEq

/-- What one probing round does to one endpoint, as `main()`'s loop
drives it through `prepare()` and `collect()`:

* `skip` — `prepare()` did not leave an attempt pending for this
  endpoint (unsupported family, `fcntl`/`connect` setup failure);
* `attempt fd start o` — `prepare()` issued an attempt (`socket := fd`
  with `fd ≠ 0`, `tvs := start`), and the collector pass that finalized
  it observed `o`. -/
inductive RoundPlan where
  | skip
  | attempt (fd : Int) (start : Nat) (o : Obs)
deriving DecidableEq

/-- Effect of one round on one endpoint. -/
def roundStep (timeout : Nat) (ep : Endpoint) : RoundPlan → Endpoint
  | .skip => ep
  | .attempt fd start o =>
      update_ep timeout o.now o.isset o.soerror { ep with socket := fd, tvs := start }

/-- An endpoint's evolution across a sequence of rounds. -/
def runRounds (timeout : Nat) (ep : Endpoint) (plans : List RoundPlan) : Endpoint :=
  plans.foldl (roundStep timeout) ep

/-- A round finalizes the endpoint through the non-timeout path of
`update()` (the `FD_ISSET` branch, success or connection failure) iff
the attempt was issued, its elapsed time was below `timeout * 1000`
microseconds, and the handle was reported ready. -/
def completesNonTimeout (timeout : Nat) : RoundPlan → Bool
  | .skip => false
  | .attempt fd start o =>
      fd ≠ 0 && elapsedUS o.now start < timeout * 1000 && o.isset

/-- One iteration of the pacing wait loop of `prepare()` (source lines
365-383): the `gettimeofday(&dtn)` reading taken at the top, and, if the
loop does not break there, the `gettimeofday` reading inside the
subsequent `update()` call and the per-endpoint readiness results it
sees. -/
structure WaitStep where
  dtn : Nat
  updNow : Nat
  os : List (Bool × Int)
deriving DecidableEq

/-- One `update(targets, fdset)` pass over a list of endpoints: every
endpoint is visited with the same `gettimeofday` reading, each with its
own `FD_ISSET`/`SO_ERROR` observation. -/
def updateList (timeout now : Nat) (os : List (Bool × Int))
    (eps : List Endpoint) : List Endpoint :=
  List.zipWith (fun ep o => update_ep timeout now o.1 o.2 ep) eps os

/-- The pacing wait loop of `prepare()`: starting from the
`gettimeofday(&dts)` reading `dts`, each iteration reads `dtn`, breaks
when `dd < dtn - dts` (`timercmp(&dd, &dtd, <)`) — returning the break
time (the attempt is issued right after) and the endpoint states — and
otherwise `select()`s and runs `update()`.  `ddUs` is the pacing
interval `dd` in microseconds; `none` means the supplied trace ended
before the loop broke. -/
def delayWaitLoop (timeout ddUs dts : Nat) (eps : List Endpoint) :
    List WaitStep → Option (Nat × List Endpoint)
  | [] => none
  | s :: rest =>
      if ddUs < s.dtn - dts then some (s.dtn, eps)
      else delayWaitLoop timeout ddUs dts (updateList timeout s.updNow s.os eps) rest

/-- The pacing interval `dd` in microseconds:
`dd.tv_sec = delay / 1000; dd.tv_usec = (delay % 1000) * 1000`. -/
def ddUsOf (delay : Nat) : Nat := delay / 1000 * 1000000 + delay % 1000 * 1000

/-- Everything the program ever does to one endpoint's probing state,
round structure erased: a `prep` event is the socket/fcntl/connect phase
of a `prepare()` pass (exactly one per endpoint per round, and `main()`
runs exactly `nqueries` rounds), an `upd` event is one `update()` pass
touching the endpoint (the pacing wait and `collect()` may run any
number of those). -/
inductive EpEvent where
  | prep (ev : ConnEv)
  | upd (o : Obs)
deriving DecidableEq

/-- Apply one event to an endpoint. -/
def applyEv (timeout : Nat) (ep : Endpoint) : EpEvent → Endpoint
  | .prep ev => prepare_ep ev ep
  | .upd o => update_ep timeout o.now o.isset o.soerror ep

/-- Run a trace of events from a starting state. -/
def runEvents (timeout : Nat) (ep : Endpoint) (evs : List EpEvent) : Endpoint :=
  evs.foldl (applyEv timeout) ep

/-- Recognize `prep` events (to count prepare passes in a trace). -/
def isPrep : EpEvent → Bool
  | .prep _ => true
  | .upd _ => false

/-- Number of pending-attempt handles an endpoint holds (0 or 1); the
sentinel for "no attempt in flight" is `socket == 0`. -/
def pendingBit (ep : Endpoint) : Nat := if ep.socket ≠ 0 then 1 else 0

theorem natMod_small {n : Nat} (h : n < 2147483648) : n % UINT_MOD = n := by
  unfold UINT_MOD
  omega

theorem toInt32_small {n : Nat} (h : n < 2147483648) : toInt32 n = (n : Int) := by
  unfold toInt32
  rw [natMod_small h]
  simp [h]

theorem toInt32_negU {n : Nat} (h0 : 0 < n) (h : n < 2147483648) :
    toInt32 (negU n) = -(n : Int) := by
  unfold toInt32 negU UINT_MOD
  have h1 : n % 4294967296 = n := by omega
  rw [h1]
  have h2 : (4294967296 - n) % 4294967296 = 4294967296 - n := by omega
  rw [h2]
  rw [if_neg (by omega)]
  push_cast
  omega

theorem elapsedUS_small {now tvs : Nat} (h : now - tvs < 2147483648) :
    elapsedUS now tvs = now - tvs := by
  unfold elapsedUS
  exact natMod_small h

theorem countP_push (p : Int → Bool) (l : List Int) (a : Int) :
    (l ++ [a]).countP p = l.countP p + if p a then 1 else 0 := by
  simp [List.countP_append, List.countP_cons]

theorem update_ep_eq_timeout (timeout now : Nat) (isset : Bool) (soerror : Int)
    (ep : Endpoint) (hs : ep.socket ≠ 0)
    (ht : timeout * 1000 ≤ elapsedUS now ep.tvs) :
    update_ep timeout now isset soerror ep =
      { ep with values := ep.values ++ [toInt32 (negU (elapsedUS now ep.tvs))],
                idx := ep.idx + 1, socket := 0 } := by
  simp only [update_ep]
  rw [if_pos ⟨hs, ht⟩]

theorem update_ep_eq_success (timeout now : Nat) (ep : Endpoint)
    (hs : ep.socket ≠ 0) (ht : elapsedUS now ep.tvs < timeout * 1000) :
    update_ep timeout now true 0 ep =
      { ep with values := ep.values ++ [toInt32 (elapsedUS now ep.tvs)],
                sum := (ep.sum + elapsedUS now ep.tvs) % UINT_MOD,
                tot := ep.tot + 1, cnt := ep.cnt + 1,
                idx := ep.idx + 1, socket := 0 } := by
  simp only [update_ep]
  rw [if_neg (fun h => absurd h.2 (by omega)), if_pos ⟨hs, trivial⟩, if_pos trivial]

theorem update_ep_eq_fail (timeout now : Nat) (soerror : Int) (ep : Endpoint)
    (hs : ep.socket ≠ 0) (ht : elapsedUS now ep.tvs < timeout * 1000)
    (hbad : soerror ≠ 0) :
    update_ep timeout now true soerror ep =
      { ep with values := ep.values ++ [toInt32 (negU (elapsedUS now ep.tvs))],
                cnt := ep.cnt + 1, idx := ep.idx + 1, socket := 0 } := by
  simp only [update_ep]
  rw [if_neg (fun h => absurd h.2 (by omega)), if_pos ⟨hs, trivial⟩, if_neg hbad]

theorem update_ep_eq_skip (timeout now : Nat) (isset : Bool) (soerror : Int)
    (ep : Endpoint) (hs : ep.socket = 0) :
    update_ep timeout now isset soerror ep = ep := by
  simp only [update_ep]
  rw [if_neg (fun h => h.1 hs), if_neg (fun h => h.1 hs)]

theorem update_ep_eq_wait (timeout now : Nat) (soerror : Int) (ep : Endpoint)
    (ht : elapsedUS now ep.tvs < timeout * 1000) :
    update_ep timeout now false soerror ep = ep := by
  simp only [update_ep]
  rw [if_neg (fun h => absurd h.2 (by omega)), if_neg (fun h => by exact absurd h.2 (by simp))]

/-- C1: the claim asserts `tot <= cnt == idx` after every collector pass
and that timed-out finalization increments `cnt` along with `idx`.  The
code's timeout branch (source lines 297-303) increments `idx` only, so
after it `cnt < idx`.  This counterexample runs one collector pass on a
pending endpoint whose attempt is 2000000 µs old with `timeout = 2000`:
the pass finalizes it as timed out with `idx = 1` but `cnt = 0`.  It
also shows the other defect of the claim: a connection failure observed
at elapsed time 0 stores the sample `-0 = 0`, which is non-negative
although `tot = 0`. -/
theorem C1_counterexample :
    (update_ep 2000 2000000 true 0 { socket := 1 }).idx = 1 ∧
    (update_ep 2000 2000000 true 0 { socket := 1 }).cnt = 0 ∧
    (update_ep 2000 5 true 7 { socket := 1, tvs := 5 }).values.countP
        (fun v => decide (0 ≤ v)) = 1 ∧
    (update_ep 2000 5 true 7 { socket := 1, tvs := 5 }).tot = 0 := by
  decide

/-- C1 (amended): after every pass of the Completion Collector,
`tot ≤ cnt ≤ idx` holds (equality `cnt = idx` fails after a timeout),
`idx` counts the recorded samples, and — provided every finalized
attempt has elapsed time strictly between 0 and 2^31 microseconds — the
number of non-negative entries of `values` equals `tot`; finalizing an
attempt as timed out appends a failure sample and increments the sample
count `idx` but leaves `cnt` (the attempt count) unchanged. -/
theorem C1_collector_invariant (timeout now : Nat) (isset : Bool) (soerror : Int)
    (ep : Endpoint) (h1 : ep.tvs < now) (h2 : now - ep.tvs < 2147483648)
    (hinv : epInv ep) :
    epInv (update_ep timeout now isset soerror ep) ∧
      (ep.socket ≠ 0 → timeout * 1000 ≤ now - ep.tvs →
        update_ep timeout now isset soerror ep =
          { ep with values := ep.values ++ [-((now - ep.tvs : Nat) : Int)],
                    idx := ep.idx + 1, socket := 0 }) := by
  obtain ⟨ha, hb, hc, hd⟩ := hinv
  have hus : elapsedUS now ep.tvs = now - ep.tvs := elapsedUS_small h2
  have hpos : 0 < now - ep.tvs := by omega
  have hsucc : toInt32 (elapsedUS now ep.tvs) = ((now - ep.tvs : Nat) : Int) := by
    rw [hus]; exact toInt32_small h2
  have hfail : toInt32 (negU (elapsedUS now ep.tvs)) = -((now - ep.tvs : Nat) : Int) := by
    rw [hus]; exact toInt32_negU hpos h2
  have hnonneg : (decide (0 ≤ ((now - ep.tvs : Nat) : Int))) = true := by
    simp
  have hneg : (decide (0 ≤ -((now - ep.tvs : Nat) : Int))) = false := by
    simp only [decide_eq_false_iff_not, not_le]
    omega
  constructor
  · by_cases hs : ep.socket = 0
    · rw [update_ep_eq_skip timeout now isset soerror ep hs]
      exact ⟨ha, hb, hc, hd⟩
    · by_cases hto : timeout * 1000 ≤ elapsedUS now ep.tvs
      · rw [update_ep_eq_timeout timeout now isset soerror ep hs hto]
        refine ⟨ha, by dsimp only; omega, by simp [hc], ?_⟩
        simp only [hfail, countP_push, hneg]
        simp [hd]
      · cases isset with
        | false =>
            rw [update_ep_eq_wait timeout now soerror ep (by omega)]
            exact ⟨ha, hb, hc, hd⟩
        | true =>
            by_cases hse : soerror = 0
            · subst hse
              rw [update_ep_eq_success timeout now ep hs (by omega)]
              refine ⟨by dsimp only; omega, by dsimp only; omega, by simp [hc], ?_⟩
              simp only [hsucc, countP_push, hnonneg]
              simp [hd]
            · rw [update_ep_eq_fail timeout now soerror ep hs (by omega) hse]
              refine ⟨by dsimp only; omega, by dsimp only; omega, by simp [hc], ?_⟩
              simp only [hfail, countP_push, hneg]
              simp [hd]
  · intro hsock hto
    rw [update_ep_eq_timeout timeout now isset soerror ep hsock (by omega), hfail]

/-- C1 witness: the amended invariant applied to one concrete collector
pass over a pending endpoint finalized as a success. -/
theorem C1_witness :
    epInv (update_ep 2000 1500 true 0 { socket := 1, tvs := 500 }) :=
  (C1_collector_invariant 2000 1500 true 0 { socket := 1, tvs := 500 }
    (by decide) (by decide) (by decide)).1

theorem roundStep_cnt (timeout : Nat) (ep : Endpoint) (p : RoundPlan) :
    (roundStep timeout ep p).cnt =
      ep.cnt + (if completesNonTimeout timeout p then 1 else 0) := by
  cases p with
  | skip => simp [roundStep, completesNonTimeout]
  | attempt fd start o =>
      obtain ⟨onow, oisset, oso⟩ := o
      simp only [roundStep, completesNonTimeout]
      by_cases hfd : fd = 0
      · rw [update_ep_eq_skip timeout onow oisset oso _ (by simpa using hfd)]
        simp [hfd]
      · by_cases hto : timeout * 1000 ≤
            elapsedUS onow ({ ep with socket := fd, tvs := start } : Endpoint).tvs
        · rw [update_ep_eq_timeout timeout onow oisset oso _ (by simpa using hfd) hto]
          dsimp only at hto ⊢
          simp [hfd, show ¬ elapsedUS onow start < timeout * 1000 by omega]
        · cases oisset with
          | false =>
              rw [update_ep_eq_wait timeout onow oso _ (by dsimp only at hto ⊢; omega)]
              simp
          | true =>
              by_cases hse : oso = 0
              · subst hse
                rw [update_ep_eq_success timeout onow _ (by simpa using hfd)
                  (by dsimp only at hto ⊢; omega)]
                dsimp only at hto ⊢
                simp [hfd, show elapsedUS onow start < timeout * 1000 by omega]
              · rw [update_ep_eq_fail timeout onow oso _ (by simpa using hfd)
                  (by dsimp only at hto ⊢; omega) hse]
                dsimp only at hto ⊢
                simp [hfd, show elapsedUS onow start < timeout * 1000 by omega]

theorem runRounds_cnt (timeout : Nat) (plans : List RoundPlan) :
    ∀ ep : Endpoint, (runRounds timeout ep plans).cnt =
      ep.cnt + plans.countP (completesNonTimeout timeout) := by
  induction plans with
  | nil => intro ep; simp [runRounds]
  | cons p ps ih =>
      intro ep
      simp only [runRounds, List.foldl_cons, List.countP_cons] at ih ⊢
      rw [ih (roundStep timeout ep p), roundStep_cnt]
      omega

/-- C2: the claim says the machine-readable report prints `OK` iff at
least one successful connection was recorded.  Counterexample: one round
whose attempt completes as a connection failure (`SO_ERROR = 5`) after
100 µs increments `cnt`, so `report_sk` prints `OK`, yet the endpoint
has no success: `tot = 0` and its only sample is `-100`. -/
theorem C2_counterexample :
    okField (runRounds 2000 {} [.attempt 1 0 ⟨100, true, 5⟩]) = "OK" ∧
    (runRounds 2000 {} [.attempt 1 0 ⟨100, true, 5⟩]).tot = 0 ∧
    (runRounds 2000 {} [.attempt 1 0 ⟨100, true, 5⟩]).values = [-100] := by
  decide

/-- C2 (amended): the third field of the `report_sk` line is `OK` iff at
least one of the endpoint's attempts was finalized through the
non-timeout path of the collector — a successful connection **or** a
connection-level failure observed via readiness; only an endpoint all of
whose rounds were skipped, timed out, or never finalized prints
`FAIL`. -/
theorem C2_okField_iff (timeout : Nat) (plans : List RoundPlan) :
    okField (runRounds timeout {} plans) = "OK" ↔
      ∃ p ∈ plans, completesNonTimeout timeout p = true := by
  have h := runRounds_cnt timeout plans {}
  have hz0 : ({} : Endpoint).cnt = 0 := rfl
  unfold okField
  by_cases hz : (runRounds timeout {} plans).cnt = 0
  · rw [if_neg (by simp [hz])]
    constructor
    · intro hcontr
      exact absurd hcontr (by decide)
    · rintro ⟨p, hp, hcp⟩
      have hpos : 0 < plans.countP (completesNonTimeout timeout) :=
        List.countP_pos_iff.mpr ⟨p, hp, hcp⟩
      omega
  · rw [if_pos hz]
    constructor
    · intro _
      have hpos : 0 < plans.countP (completesNonTimeout timeout) := by omega
      exact List.countP_pos_iff.mp hpos
    · intro _
      rfl

/-- C3: when `socket()` fails with `EAFNOSUPPORT`/`EPROTONOSUPPORT`, the
source `continue`s after having already stored the returned `-1` in
`ep->socket`, without the `ep->socket = 0` reset the `default:` error
branch performs.  The endpoint therefore still looks pending
(`ep->socket` non-zero), `generate_fdset` passes `-1` to `FD_SET`, and
the next collector pass — run from the pacing wait of a later endpoint
or from `collect()` while any other attempt is outstanding — measures a
huge elapsed time against the stale (zero-initialized) `tvs` and appends
a spurious timeout sample.  Evaluated here: after the unsupported-family
branch the socket field is `-1`, and a collector pass 10 s into the run
records a sample (`idx` goes from 0 to 1), contradicting the claim that
no sample is recorded for the skipped endpoint. -/
theorem C3_unsupported_leaves_stale_socket :
    (prepare_ep (.sockFail true) {}).socket = -1 ∧
    (update_ep 2000 10000000 false 0 (prepare_ep (.sockFail true) {})).idx = 1 ∧
    (update_ep 2000 10000000 false 0 (prepare_ep (.sockFail true) {})).values
      = [-10000000] ∧
    (prepare_ep (.sockFail false) {}).socket = 0 := by
  decide

/-- C4: the claim says that with `timeout == 0` no outstanding attempt is
ever classified as timed out.  The collector's check is
`us >= timeout * 1000` with no zero guard, so at `timeout = 0` it holds
for every elapsed time: this pending endpoint, 5 µs into its attempt, is
immediately finalized as timed out (sample `-5`, handle released). -/
theorem C4_counterexample :
    (update_ep 0 5 false 0 { socket := 1 }).values = [-5] ∧
    (update_ep 0 5 false 0 { socket := 1 }).idx = 1 ∧
    (update_ep 0 5 false 0 { socket := 1 }).socket = 0 := by
  decide

/-- C4 (amended): when the configured timeout is zero, every pending
attempt is classified as timed out by the very next collector pass
(the check `us >= timeout * 1000` is vacuously true), while the Round
Driver's readiness wait does pass a NULL timeout to `select()` (an
unbounded wait) — though `collect()` only reaches that wait while
sockets with valid descriptors are outstanding. -/
theorem C4_zero_timeout (now : Nat) (isset : Bool) (soerror : Int)
    (ep : Endpoint) (hs : ep.socket ≠ 0) :
    update_ep 0 now isset soerror ep =
      { ep with values := ep.values ++ [toInt32 (negU (elapsedUS now ep.tvs))],
                idx := ep.idx + 1, socket := 0 } ∧
    selectTimeout 0 = none := by
  exact ⟨update_ep_eq_timeout 0 now isset soerror ep hs (by omega), by decide⟩

/-- C4 witness: the zero-timeout collector pass on a concrete pending
endpoint. -/
theorem C4_witness :
    update_ep 0 5 true 0 { socket := 3 } =
      { socket := 0, tvs := 0, sum := 0, tot := 0, idx := 1, cnt := 0,
        values := [-5] } ∧
    selectTimeout 0 = none := by
  have h := C4_zero_timeout 5 true 0 { socket := 3 } (by decide)
  refine ⟨?_, h.2⟩
  rw [h.1]
  decide

/-- C5: the claim says `-t` accepts every non-negative integer, with 0
meaning no timeout.  The source's check is `num > 0 && *endptr == '\0'`,
so the argument string "0" — a non-negative integer, parsed by `strtol`
to 0 with the whole string consumed — is rejected and the process exits
with failure status. -/
theorem C5_counterexample :
    opt_t_set (strtolNum false [0]) true = none ∧ digitsVal [0] = 0 := by
  decide

theorem strtolNum_eq_false {ds : List Nat} (h : digitsVal ds < 2147483648) :
    strtolNum false ds = (digitsVal ds : Int) := by
  unfold strtolNum
  rw [if_neg (by simp)]
  rw [min_eq_right (by omega), max_eq_right (by omega)]

theorem strtolNum_eq_true {ds : List Nat} (h : digitsVal ds < 2147483648) :
    strtolNum true ds = -(digitsVal ds : Int) := by
  unfold strtolNum
  rw [if_pos rfl]
  rw [min_eq_right (by omega), max_eq_right (by omega)]

theorem longToInt_natCast {d : Nat} (h : d < 2147483648) :
    longToInt (d : Int) = (d : Int) := by
  unfold longToInt
  rw [Int.emod_eq_of_lt (by omega) (by omega)]
  rw [if_pos (by omega)]

theorem longToInt_negCast_nonpos {d : Nat} (h : d < 2147483648) :
    longToInt (-(d : Int)) ≤ 0 := by
  unfold longToInt
  split_ifs <;> omega

/-- C5 (amended): `-t` accepts an argument iff `strtol` consumes it
entirely and the `int` truncation of `strtol`'s (saturated) `long`
result is positive.  For canonical integer arguments whose magnitude is
below `2^31` that means exactly the positive ones: "0" exits with
failure status, as do negated arguments and (by `*endptr == '\0'`)
arguments with trailing garbage, while an accepted value becomes the
timeout.  Larger spellings wrap in the `long`-to-`int` assignment: the
positive integer 2147483648 truncates to `-2^31` and is rejected. -/
theorem C5_opt_t (neg endptrAtEnd : Bool) (ds : List Nat)
    (hsmall : digitsVal ds < 2147483648) :
    (opt_t_set (strtolNum neg ds) endptrAtEnd =
      if neg = false ∧ 0 < digitsVal ds ∧ endptrAtEnd = true
      then some (digitsVal ds) else none) ∧
    opt_t_set (strtolNum false [2, 1, 4, 7, 4, 8, 3, 6, 4, 8]) true = none := by
  refine ⟨?_, by decide⟩
  cases neg with
  | false =>
      unfold opt_t_set
      rw [strtolNum_eq_false hsmall, longToInt_natCast hsmall]
      cases endptrAtEnd <;> by_cases hd : 0 < digitsVal ds <;>
        simp [hd, Int.natCast_pos]
  | true =>
      unfold opt_t_set
      rw [strtolNum_eq_true hsmall]
      rw [if_neg (fun hcon => absurd hcon.1
        (by have := longToInt_negCast_nonpos hsmall; omega))]
      rw [if_neg (by simp)]

/-- C5 witness: the amended characterization at the in-range argument
"2000" (accepted, timeout 2000) together with the wrapped rejection of
"2147483648". -/
theorem C5_witness :
    (opt_t_set (strtolNum false [2, 0, 0, 0]) true =
      if false = false ∧ 0 < digitsVal [2, 0, 0, 0] ∧ true = true
      then some (digitsVal [2, 0, 0, 0]) else none) ∧
    opt_t_set (strtolNum false [2, 1, 4, 7, 4, 8, 3, 6, 4, 8]) true = none :=
  C5_opt_t false true [2, 0, 0, 0] (by decide)

theorem cmp_tot_zero (e x : Endpoint) (h : e.tot = 0) :
    cmp e x = 0 ∧ cmp x e = 0 := by
  unfold cmp
  exact ⟨by rw [if_pos (Or.inl h)], by rw [if_pos (Or.inr h)]⟩

theorem cmp_le_iff {a b : Endpoint} (ha : 0 < a.tot) (hb : 0 < b.tot) :
    cmp a b ≤ 0 ↔ meanLe a b := by
  unfold cmp meanLe
  rw [if_neg (by omega)]
  split_ifs with h1 h2 <;> constructor <;> intro h <;> omega

theorem cmp_not_le {a b : Endpoint} (ha : 0 < a.tot) (hb : 0 < b.tot)
    (h : ¬ cmp a b ≤ 0) : meanLe b a := by
  rcases Nat.le_total (a.sum / a.tot) (b.sum / b.tot) with hle | hle
  · exact absurd ((cmp_le_iff ha hb).mpr hle) h
  · exact hle

theorem meanLe_trans {a b c : Endpoint} (h1 : meanLe a b) (h2 : meanLe b c) :
    meanLe a c := Nat.le_trans h1 h2

theorem insertEp_perm (x : Endpoint) (l : List Endpoint) :
    List.Perm (insertEp x l) (x :: l) := by
  induction l with
  | nil => exact List.Perm.refl _
  | cons y ys ih =>
      unfold insertEp
      by_cases h : cmp x y ≤ 0
      · rw [if_pos h]
      · rw [if_neg h]
        exact (ih.cons y).trans (List.Perm.swap x y ys)

theorem sortEps_perm (l : List Endpoint) : List.Perm (sortEps l) l := by
  induction l with
  | nil => exact List.Perm.refl _
  | cons x xs ih => exact (insertEp_perm x (sortEps xs)).trans (ih.cons x)

theorem pairwise_insertEp (x : Endpoint) (l : List Endpoint)
    (htot : ∀ e ∈ x :: l, 0 < e.tot) (hl : l.Pairwise meanLe) :
    (insertEp x l).Pairwise meanLe := by
  induction l with
  | nil => simp [insertEp]
  | cons y ys ih =>
      obtain ⟨hy, hys⟩ := List.pairwise_cons.mp hl
      have hx : 0 < x.tot := htot x (by simp)
      have hy0 : 0 < y.tot := htot y (by simp)
      unfold insertEp
      by_cases h : cmp x y ≤ 0
      · rw [if_pos h]
        have hxy : meanLe x y := (cmp_le_iff hx hy0).mp h
        refine List.pairwise_cons.mpr ⟨?_, hl⟩
        intro z hz
        rcases List.mem_cons.mp hz with rfl | hz2
        · exact hxy
        · exact meanLe_trans hxy (hy z hz2)
      · rw [if_neg h]
        have hyx : meanLe y x := cmp_not_le hx hy0 h
        refine List.pairwise_cons.mpr ⟨?_, ?_⟩
        · intro z hz
          have hz2 : z ∈ x :: ys := (insertEp_perm x ys).subset hz
          rcases List.mem_cons.mp hz2 with rfl | hz3
          · exact hyx
          · exact hy z hz3
        · exact ih (fun e he => htot e (by simp at he ⊢; tauto)) hys

theorem sortEps_pairwise (l : List Endpoint) (htot : ∀ e ∈ l, 0 < e.tot) :
    (sortEps l).Pairwise meanLe := by
  induction l with
  | nil => simp [sortEps]
  | cons x xs ih =>
      refine pairwise_insertEp x (sortEps xs) ?_ (ih (fun e he => htot e (by simp [he])))
      intro e he
      rcases List.mem_cons.mp he with rfl | he2
      · exact htot e (by simp)
      · exact htot e (by simp [(sortEps_perm xs).subset he2])

/-- C6: the claim says endpoints with `successCount == 0` may appear in
any relative position *without disturbing the relative order of
endpoints that have data*.  Counterexample: on the target
`[mean 10, no-data, mean 5]` the comparator returns 0 for the no-data
endpoint against both neighbours, so the sort never orders the two data
endpoints with respect to each other and leaves the list unchanged —
after the Ranker runs, the endpoints that have data stand in strictly
decreasing mean order (10 before 5).  `qsort` with this intransitive
comparator gives no stronger guarantee. -/
theorem C6_counterexample :
    sortEps [{ sum := 20, tot := 2 }, {}, { sum := 5, tot := 1 }] =
      [{ sum := 20, tot := 2 }, {}, { sum := 5, tot := 1 }] ∧
    ¬ meanLe { sum := 20, tot := 2 } { sum := 5, tot := 1 } ∧
    0 < ({ sum := 20, tot := 2 } : Endpoint).tot ∧
    0 < ({ sum := 5, tot := 1 } : Endpoint).tot ∧
    ({} : Endpoint).tot = 0 := by
  decide

/-- C6 (amended): for a target all of whose endpoints have `tot > 0`,
the ranked order is non-decreasing in the integer mean `sum / tot` and
is a permutation of the target's endpoints; an endpoint with `tot == 0`
compares equal (comparator result 0) to every endpoint in both argument
orders, so the sort is free to leave it in any position — and, the
comparator being intransitive on such mixed targets, endpoints that do
have data carry no relative-order guarantee there (the counterexample
above exhibits a disturbed order). -/
theorem C6_ranker (l : List Endpoint) (htot : ∀ e ∈ l, 0 < e.tot) :
    (sortEps l).Pairwise meanLe ∧ List.Perm (sortEps l) l ∧
      ∀ e x : Endpoint, e.tot = 0 → cmp e x = 0 ∧ cmp x e = 0 :=
  ⟨sortEps_pairwise l htot, sortEps_perm l, fun e x he => cmp_tot_zero e x he⟩

/-- C6 witness: the Ranker on a concrete two-endpoint target with means
15 and 5. -/
theorem C6_witness :
    (sortEps [{ sum := 30, tot := 2 }, { sum := 10, tot := 2 }]).Pairwise meanLe ∧
    List.Perm (sortEps [{ sum := 30, tot := 2 }, { sum := 10, tot := 2 }])
      [{ sum := 30, tot := 2 }, { sum := 10, tot := 2 }] :=
  ⟨(C6_ranker [{ sum := 30, tot := 2 }, { sum := 10, tot := 2 }] (by decide)).1,
   (C6_ranker [{ sum := 30, tot := 2 }, { sum := 10, tot := 2 }] (by decide)).2.1⟩

/-- C7: the claim says a non-negative sample is rendered as `SSSS.mmm`,
seconds and milliseconds.  The samples are microseconds and the source
prints `values[i]/1000` and `values[i]%1000`, i.e. milliseconds and the
microsecond remainder.  A 61000 µs (61 ms) success renders as `61.000`,
not the `0.061` the spec's description would produce. -/
theorem C7_counterexample :
    renderValue 61000 ≠ specRenderValue 61000 ∧
    renderValue 61000 = .num 61 0 ∧
    specRenderValue 61000 = .num 0 61 := by
  decide

/-- C7 (amended): every non-negative sample `v` (microseconds) is
rendered as the fixed-width field `MMMM.uuu` whose two numbers are
`v / 1000` milliseconds and the remainder `v % 1000` microseconds
(together reconstructing `v` exactly), every negative sample is rendered
as the placeholder marker, and a missing sample (index ≥ `idx`) is not
rendered at all: the line carries exactly one field per recorded
sample. -/
theorem C7_render (v w : Int) (vals : List Int) (h : 0 ≤ v) (hw : w < 0) :
    renderValue v = .num (v.toNat / 1000) (v.toNat % 1000) ∧
    v.toNat / 1000 * 1000 + v.toNat % 1000 = v.toNat ∧ v.toNat % 1000 < 1000 ∧
    renderValue w = .star ∧
    (renderValues vals).length = vals.length := by
  refine ⟨?_, by omega, by omega, ?_, ?_⟩
  · unfold renderValue
    rw [if_pos h]
  · unfold renderValue
    rw [if_neg (by omega)]
  · unfold renderValues
    simp

/-- C7 witness: the amended rendering statement at the 61000 µs sample,
a failed sample `-5`, and a two-sample list. -/
theorem C7_witness :
    renderValue 61000 = .num (Int.toNat 61000 / 1000) (Int.toNat 61000 % 1000) ∧
    Int.toNat 61000 / 1000 * 1000 + Int.toNat 61000 % 1000 = Int.toNat 61000 ∧
    Int.toNat 61000 % 1000 < 1000 ∧
    renderValue (-5) = .star ∧
    (renderValues [61000, -5]).length = ([61000, -5] : List Int).length :=
  C7_render 61000 (-5) [61000, -5] (by decide) (by decide)

theorem delayWaitLoop_break (timeout ddUs dts : Nat) :
    ∀ (steps : List WaitStep) (eps eps2 : List Endpoint) (tExit : Nat),
      delayWaitLoop timeout ddUs dts eps steps = some (tExit, eps2) →
      ddUs < tExit - dts ∧
      ∃ pre s rest, steps = pre ++ s :: rest ∧ tExit = s.dtn ∧
        (∀ p ∈ pre, ¬ ddUs < p.dtn - dts) ∧
        eps2 = pre.foldl (fun es p => updateList timeout p.updNow p.os es) eps := by
  intro steps
  induction steps with
  | nil =>
      intro eps eps2 tExit h
      simp [delayWaitLoop] at h
  | cons s rest ih =>
      intro eps eps2 tExit h
      unfold delayWaitLoop at h
      by_cases hb : ddUs < s.dtn - dts
      · rw [if_pos hb] at h
        injection h with h2
        injection h2 with h3 h4
        subst h3
        subst h4
        exact ⟨hb, [], s, rest, rfl, rfl, by simp, by simp⟩
      · rw [if_neg hb] at h
        obtain ⟨hlt, pre, s2, rest2, heq, htx, hpre, hfold⟩ := ih _ _ _ h
        refine ⟨hlt, s :: pre, s2, rest2, by simp [heq], htx, ?_, ?_⟩
        · intro p hp
          rcases List.mem_cons.mp hp with rfl | hp2
          · exact hb
          · exact hpre p hp2
        · simp only [List.foldl_cons]
          exact hfold

/-- C8: within one round, the pacing wait that precedes each issuance
starts at a `gettimeofday` reading `dts` taken no earlier than the
previous issuance, and only breaks — issuing the next attempt at its
break time `tExit` — once `delay` milliseconds (as `dd`, in
microseconds) have strictly elapsed since `dts`; therefore successive
issuances are more than `delay * 1000` µs apart.  Moreover every
iteration before the break runs a full `update()` pass (the Completion
Collector) with that iteration's readiness results, so completions
arriving during the gap are finalized: the endpoint states at issuance
are exactly the fold of those collector passes. -/
theorem C8_pacing (timeout delay dts prevIssue tExit : Nat)
    (eps eps2 : List Endpoint) (steps : List WaitStep)
    (hdelay : delay ≠ 0) (hprev : prevIssue ≤ dts)
    (hrun : delayWaitLoop timeout (ddUsOf delay) dts eps steps = some (tExit, eps2)) :
    prevIssue + delay * 1000 < tExit ∧
    ∃ pre s rest, steps = pre ++ s :: rest ∧ tExit = s.dtn ∧
      (∀ p ∈ pre, ¬ ddUsOf delay < p.dtn - dts) ∧
      eps2 = pre.foldl (fun es p => updateList timeout p.updNow p.os es) eps := by
  obtain ⟨hlt, hrest⟩ :=
    delayWaitLoop_break timeout (ddUsOf delay) dts steps eps eps2 tExit hrun
  have hd : ddUsOf delay = delay * 1000 := by
    unfold ddUsOf
    omega
  exact ⟨by omega, hrest⟩

/-- C8 witness: a concrete pacing wait with `delay = 25` ms starting at
`dts = 100` (previous issuance at 50): one non-breaking iteration at
`dtn = 200`, then a break at `dtn = 30000`, more than 25000 µs after the
previous issuance. -/
theorem C8_witness :
    delayWaitLoop 2000 (ddUsOf 25) 100 []
      [⟨200, 300, []⟩, ⟨30000, 30000, []⟩] = some (30000, []) ∧
    50 + 25 * 1000 < 30000 := by
  refine ⟨by decide, ?_⟩
  exact (C8_pacing 2000 25 100 50 30000 [] []
    [⟨200, 300, []⟩, ⟨30000, 30000, []⟩] (by decide) (by decide) (by decide)).1

/-- C9: the first loop of `trim()` evaluates `isspace(p[l-1])` before
testing `l`, so on the empty string it reads one byte before the start
of the buffer (here: `trimFirstLoop [] = none`), and any invocation that
performs no out-of-bounds read necessarily had a string of length at
least 1. -/
theorem C9_trim_precondition :
    trimFirstLoop [] = none ∧
    ∀ p : List Char, (trimFirstLoop p).isSome = true → 1 ≤ p.length := by
  constructor
  · rfl
  · intro p hp
    cases p with
    | nil => simp [trimFirstLoop, trimRightLen] at hp
    | cons c cs => simp

/-- C9 witness: `trim`'s first loop on the one-character string "a"
performs no out-of-bounds read and the string indeed has length ≥ 1. -/
theorem C9_witness :
    (trimFirstLoop ['a']).isSome = true ∧ 1 ≤ (['a'] : List Char).length :=
  ⟨by decide, C9_trim_precondition.2 ['a'] (by decide)⟩

theorem pendingBit_le_one (ep : Endpoint) : pendingBit ep ≤ 1 := by
  unfold pendingBit
  split_ifs <;> omega

theorem applyEv_idx (timeout : Nat) (ep : Endpoint) (e : EpEvent) :
    (applyEv timeout ep e).idx + pendingBit (applyEv timeout ep e) ≤
      ep.idx + pendingBit ep + (if isPrep e then 1 else 0) := by
  cases e with
  | prep ev =>
      have hple := pendingBit_le_one (applyEv timeout ep (.prep ev))
      have hidx : (applyEv timeout ep (.prep ev)).idx = ep.idx := by
        cases ev with
        | sockFail u => cases u <;> simp [applyEv, prepare_ep]
        | fcntlFail fd => simp [applyEv, prepare_ep]
        | connFail fd => simp [applyEv, prepare_ep]
        | connStart fd now => simp [applyEv, prepare_ep]
      rw [hidx]
      have hip : isPrep (.prep ev) = true := rfl
      rw [hip]
      simp only [if_true]
      omega
  | upd o =>
      obtain ⟨onow, oisset, oso⟩ := o
      have hip : (if isPrep (.upd ⟨onow, oisset, oso⟩) then 1 else 0) = 0 := rfl
      rw [hip]
      simp only [applyEv]
      by_cases hs : ep.socket = 0
      · rw [update_ep_eq_skip _ _ _ _ _ hs]
        omega
      · have hpb : pendingBit ep = 1 := by simp [pendingBit, hs]
        by_cases hto : timeout * 1000 ≤ elapsedUS onow ep.tvs
        · rw [update_ep_eq_timeout _ _ _ _ _ hs hto]
          simp [pendingBit, hs]
        · cases oisset with
          | false =>
              rw [update_ep_eq_wait _ _ _ _ (by omega)]
              omega
          | true =>
              by_cases hse : oso = 0
              · subst hse
                rw [update_ep_eq_success _ _ _ hs (by omega)]
                simp [pendingBit, hs]
              · rw [update_ep_eq_fail _ _ _ _ hs (by omega) hse]
                simp [pendingBit, hs]

theorem runEvents_idx_bound (timeout : Nat) :
    ∀ (evs : List EpEvent) (ep : Endpoint),
      (runEvents timeout ep evs).idx + pendingBit (runEvents timeout ep evs) ≤
        ep.idx + pendingBit ep + evs.countP isPrep := by
  intro evs
  induction evs with
  | nil =>
      intro ep
      simp [runEvents]
  | cons e es ih =>
      intro ep
      simp only [runEvents, List.foldl_cons, List.countP_cons] at ih ⊢
      have h1 := applyEv_idx timeout ep e
      have h2 := ih (applyEv timeout ep e)
      omega

theorem applyEv_len (timeout : Nat) (ep : Endpoint) (e : EpEvent)
    (h : ep.idx = ep.values.length) :
    (applyEv timeout ep e).idx = (applyEv timeout ep e).values.length := by
  cases e with
  | prep ev =>
      cases ev with
      | sockFail u => cases u <;> simp [applyEv, prepare_ep, h]
      | fcntlFail fd => simp [applyEv, prepare_ep, h]
      | connFail fd => simp [applyEv, prepare_ep, h]
      | connStart fd now => simp [applyEv, prepare_ep, h]
  | upd o =>
      obtain ⟨onow, oisset, oso⟩ := o
      simp only [applyEv]
      by_cases hs : ep.socket = 0
      · rw [update_ep_eq_skip _ _ _ _ _ hs]
        exact h
      · by_cases hto : timeout * 1000 ≤ elapsedUS onow ep.tvs
        · rw [update_ep_eq_timeout _ _ _ _ _ hs hto]
          simp [h]
        · cases oisset with
          | false =>
              rw [update_ep_eq_wait _ _ _ _ (by omega)]
              exact h
          | true =>
              by_cases hse : oso = 0
              · subst hse
                rw [update_ep_eq_success _ _ _ hs (by omega)]
                simp [h]
              · rw [update_ep_eq_fail _ _ _ _ hs (by omega) hse]
                simp [h]

theorem runEvents_len (timeout : Nat) :
    ∀ (evs : List EpEvent) (ep : Endpoint), ep.idx = ep.values.length →
      (runEvents timeout ep evs).idx = (runEvents timeout ep evs).values.length := by
  intro evs
  induction evs with
  | nil =>
      intro ep h
      exact h
  | cons e es ih =>
      intro ep h
      simp only [runEvents, List.foldl_cons] at ih ⊢
      exact ih (applyEv timeout ep e) (applyEv_len timeout ep e h)

/-- C10: the claim's justification says each endpoint is finalized at
most once per round because finalization clears the pending-socket field
and only the next round's prepare pass issues a new attempt.
Counterexample: an endpoint carrying the stale `-1` socket left by the
unsupported-family branch (see `C3_unsupported_leaves_stale_socket`) is
finalized by a collector pass at the start of a round, gets its socket
re-poisoned to `-1` by that same round's single prepare pass, and is
finalized again by a later collector pass of the same round — two
samples recorded in a round containing exactly one `prep` event. -/
theorem C10_counterexample :
    (runEvents 2000 { socket := -1 }
      [.upd ⟨10000000, false, 0⟩, .prep (.sockFail true),
       .upd ⟨20000000, false, 0⟩]).idx = 2 ∧
    ([EpEvent.upd ⟨10000000, false, 0⟩, .prep (.sockFail true),
      .upd ⟨20000000, false, 0⟩].countP isPrep) = 1 := by
  decide

/-- C10 (amended): starting from the zero-initialized endpoint state,
`idx` never exceeds the number of `prepare()` passes the endpoint has
gone through — each finalization (which writes `values[idx]` and
increments `idx`) consumes one socket-field assignment, and `prepare()`
assigns the socket field exactly once per endpoint per round — and
`main()` runs exactly `nqueries` rounds, so `idx ≤ nqueries` and every
write to the `nqueries`-slot `values` buffer is in bounds (the recorded
prefix always has length `idx`).  This holds even though an endpoint
left with a stale invalid handle can be finalized twice within a single
round, because such a double finalization consumes the previous round's
assignment. -/
theorem C10_idx_bound (timeout nq : Nat) (evs : List EpEvent)
    (h : evs.countP isPrep ≤ nq) :
    (runEvents timeout {} evs).idx ≤ nq ∧
    (runEvents timeout {} evs).values.length = (runEvents timeout {} evs).idx := by
  have h1 := runEvents_idx_bound timeout evs {}
  have h2 := runEvents_len timeout evs {} rfl
  have h0 : ({} : Endpoint).idx + pendingBit ({} : Endpoint) = 0 := rfl
  exact ⟨by omega, h2.symm⟩

/-- C10 witness: a three-round run (hence at most three prepare passes)
of which one round issues and finalizes an attempt. -/
theorem C10_witness :
    (runEvents 2000 {} [.prep (.connStart 4 0), .upd ⟨100, true, 0⟩]).idx ≤ 3 ∧
    (runEvents 2000 {} [.prep (.connStart 4 0), .upd ⟨100, true, 0⟩]).values.length =
      (runEvents 2000 {} [.prep (.connStart 4 0), .upd ⟨100, true, 0⟩]).idx :=
  C10_idx_bound 2000 3 [.prep (.connStart 4 0), .upd ⟨100, true, 0⟩] (by decide)

end Happy
